import Mathlib

/-!
Verification of the it-job-aggregator pipeline (scrape / normalize /
deduplicate / deliver).  Each component of the Python sources is shallowly
embedded as executable Lean definitions; HTML parsing and network I/O are
modelled at their natural abstraction boundary (the already-extracted
attributes of the relevant nodes, and oracles for fetch outcomes).
-/

set_option autoImplicit false
set_option maxRecDepth 100000

namespace ITJA

/-- The normalized job-posting record (src/it_job_aggregator/models.py,
class `Job`).  pydantic's `HttpUrl` field is represented by its string
rendering; validity of the URL is checked by `is_http_url` below, which
models the pydantic validation performed at construction time. -/
structure Job where
  title : String
  company : Option String
  link : String
  description : String
  source : String
  position_level : Option String
  location : Option String
  deadline : Option String
  experience : Option String
  posted_date : Option String
deriving DecidableEq, Repr

/-- Models pydantic `HttpUrl` validation: the link must be an absolute
http/https URL with a non-empty host.  (pydantic accepts more schemes and
normalizes the URL; for the claims only accept/reject of plain http(s)
links matters.) -/
def is_http_url (s : String) : Bool :=
  let d := s.data
  let afterScheme : Option (List Char) :=
    if d.take 8 = "https://".data then some (d.drop 8)
    else if d.take 7 = "http://".data then some (d.drop 7)
    else none
  match afterScheme with
  | none => false
  | some rest =>
    let host := rest.takeWhile (fun c => c ≠ '/' ∧ c ≠ '?' ∧ c ≠ '#')
    decide (host ≠ [])

/-- A sample posting used to evaluate the embeddings on concrete input. -/
def sampleJob : Job :=
  { title := "QA Engineer", company := none, link := "https://example.com/j1",
    description := "desc", source := "Jobs.ps", position_level := none,
    location := none, deadline := none, experience := none, posted_date := none }

/-- A posting whose description is long (300 characters, all `z`) — far
beyond any plausible truncation bound — while none of its other fields
contains a `z` at all. -/
def longDescJob : Job :=
  { title := "Backend Dev", company := none, link := "https://example.com/j2",
    description := ⟨List.replicate 300 'z'⟩, source := "Src",
    position_level := none, location := none, deadline := none,
    experience := none, posted_date := none }

namespace Db

/-- Models Python's `x or None` coercion on a string field: empty strings
are stored as NULL/None. -/
def py_or_none (s : String) : Option String :=
  if s = "" then none else some s

/-- The persistent store is the list of inserted rows; each row holds the
ten explicitly inserted columns of the `jobs` table (db.py, `init_db`).
The auto-increment id and the server-side `created_at` timestamp carry no
information relevant to the claims and are omitted. -/
abbrev DbState := List Job

/-- Embedding of `Database.save_job` (db.py lines 76-113).  The sqlite
engine's behaviour on `INSERT` is modelled as follows: the `UNIQUE`
constraint on `link` deterministically raises `sqlite3.IntegrityError`
exactly when a stored row already has the same link (mapped by the code to
a `False` return); any other persistence failure of the engine is an
environmental event, modelled by the `fault` oracle, and is re-raised by
the code (`Except.error`). -/
def save_job (fault : Option String) (db : DbState) (j : Job) :
    Except String (Bool × DbState) :=
  match fault with
  | some e => Except.error e
  | none =>
    if db.any (fun r => r.link == j.link) then
      Except.ok (false, db)
    else
      Except.ok (true, db ++ [j])

end Db

namespace Formatter

/-- The reserved MarkdownV2 characters of `JobFormatter.ESCAPE_CHARS`
(formatter.py line 13): `_*[]()~`, backtick, `>#+-=|`, both curly braces,
`.!` and backslash. -/
def escapeChars : List Char :=
  ['_', '*', '[', ']', '(', ')', '~', Char.ofNat 96, '>', '#', '+', '-',
   '=', '|', Char.ofNat 123, Char.ofNat 125, '.', '!', '\\']

/-- Whether a character belongs to the reserved set. -/
def isReserved (c : Char) : Bool := escapeChars.contains c

/-- Embedding of `JobFormatter.escape_markdown` (formatter.py lines 15-23):
`re.sub` replaces every occurrence of a reserved character with a backslash
followed by that character; the empty string is returned unchanged. -/
def escape_markdown (s : String) : String :=
  if s = "" then ""
  else ⟨s.data.flatMap (fun c => if isReserved c then ['\\', c] else [c])⟩

/-- Models the truthiness test `if job.field:` on an optional string field
followed by the labelled, escaped line appended to the message. -/
def optField (label : String) (v : Option String) : String :=
  match v with
  | some s => if s = "" then "" else label ++ escape_markdown s ++ "\n"
  | none => ""

/-- Embedding of `JobFormatter.format_job` (formatter.py lines 25-66).
Field lines are concatenated in source order; the link URL is interpolated
raw (unescaped). -/
def format_job (j : Job) : String :=
  "🚀 *New IT Job Posting*\n\n"
  ++ "*Title:* *" ++ escape_markdown j.title ++ "*\n\n"
  ++ optField "*Company:* " j.company
  ++ optField "*Location:* " j.location
  ++ optField "*Position Level:* " j.position_level
  ++ optField "*Experience:* " j.experience
  ++ optField "*Deadline:* " j.deadline
  ++ optField "*Posted Date:* " j.posted_date
  ++ "*Source:* " ++ escape_markdown j.source ++ "\n\n"
  ++ "[Apply Here / View Details](" ++ j.link ++ ")"

/-- A character list is fully escaped when scanning it never meets a
reserved character that is not itself part of a backslash-escape pair. -/
def allEscaped : List Char → Bool
  | [] => true
  | [c] => !(isReserved c)
  | c :: d :: r => if c = '\\' then allEscaped r else !(isReserved c) && allEscaped (d :: r)

/-- Removing every escape marker introduced by the escaper (a backslash
followed by any character collapses to that character). -/
def unescape : List Char → List Char
  | [] => []
  | [c] => [c]
  | c :: d :: r => if c = '\\' then d :: unescape r else c :: unescape (d :: r)

end Formatter

namespace Filters

/-- English IT/software keyword list of `JobFilter.ENGLISH_KEYWORDS`
(filters.py lines 14-47), verbatim and in source order. -/
def ENGLISH_KEYWORDS : List String :=
  ["developer", "engineer", "qa", "sdet", "programmer", "data", "frontend",
   "backend", "fullstack", "full stack", "devops", "software", "react",
   "python", "java", "ios", "android", "ui/ux", "sysadmin", "cybersecurity",
   "security", "network", "cloud", "aws", "azure", "docker", "kubernetes",
   "machine learning", "sql", "database", "linux", "information technology"]

/-- Arabic-script keyword list of `JobFilter.ARABIC_KEYWORDS`
(filters.py lines 49-63), with exactly the code points the source file
contains. -/
def ARABIC_KEYWORDS : List String :=
  ["Ù…Ø·ÙˆØ±", "Ù…Ø¨Ø±Ù…Ø¬", "Ø¨Ø±Ù…Ø¬ÙŠØ§Øª", "Ù‡Ù†Ø¯Ø³Ø©",
   "ØªÙƒÙ†ÙˆÙ„ÙˆØ¬ÙŠØ§", "Ø¨ÙŠØ§Ù†Ø§Øª", "Ø³ÙŠØ¨Ø±Ø§Ù†ÙŠ", "Ø¬ÙˆØ¯Ø©",
   "ÙØ­Øµ", "ØªÙ‚Ù†ÙŠØ©", "Ø­Ø§Ø³ÙˆØ¨", "Ø´Ø¨ÙƒØ§Øª",
   "ØªØ·Ø¨ÙŠÙ‚Ø§Øª"]

/-- Single-character NFKD compatibility decomposition, modelling
`unicodedata.normalize("NFKD", ...)` (filters.py `normalize_text`)
restricted to the mathematical alphanumeric letter blocks used for
stylized text (bold, italic, bold italic, sans-serif bold, sans-serif
bold italic); every other character decomposes to itself.  These blocks
carry no combining classes, so NFKD acts exactly character by character
on them. -/
def nfkdChar (c : Char) : List Char :=
  let n := c.toNat
  if 0x1D400 ≤ n ∧ n ≤ 0x1D419 then [Char.ofNat (n - 0x1D400 + 65)]
  else if 0x1D41A ≤ n ∧ n ≤ 0x1D433 then [Char.ofNat (n - 0x1D41A + 97)]
  else if 0x1D434 ≤ n ∧ n ≤ 0x1D44D then [Char.ofNat (n - 0x1D434 + 65)]
  else if 0x1D44E ≤ n ∧ n ≤ 0x1D467 ∧ n ≠ 0x1D455 then [Char.ofNat (n - 0x1D44E + 97)]
  else if 0x1D468 ≤ n ∧ n ≤ 0x1D481 then [Char.ofNat (n - 0x1D468 + 65)]
  else if 0x1D482 ≤ n ∧ n ≤ 0x1D49B then [Char.ofNat (n - 0x1D482 + 97)]
  else if 0x1D5D4 ≤ n ∧ n ≤ 0x1D5ED then [Char.ofNat (n - 0x1D5D4 + 65)]
  else if 0x1D5EE ≤ n ∧ n ≤ 0x1D607 then [Char.ofNat (n - 0x1D5EE + 97)]
  else if 0x1D63C ≤ n ∧ n ≤ 0x1D655 then [Char.ofNat (n - 0x1D63C + 65)]
  else if 0x1D656 ≤ n ∧ n ≤ 0x1D66F then [Char.ofNat (n - 0x1D656 + 97)]
  else [c]

/-- Embedding of `JobFilter.normalize_text` (filters.py lines 79-85). -/
def normalize_text (s : String) : String := ⟨s.data.flatMap nfkdChar⟩

/-- Word characters for the regex `\b` boundary (Unicode-aware `\w`),
restricted to the character ranges in scope: ASCII alphanumerics and
underscore, the Arabic block, and the mathematical alphanumeric block. -/
def isWordChar (c : Char) : Bool :=
  (c.isAlphanum || c = '_')
  || (0x600 ≤ c.toNat && c.toNat ≤ 0x6FF)
  || (0x1D400 ≤ c.toNat && c.toNat ≤ 0x1D7FF)

/-- Case-insensitive prefix test of an (already lowercase) pattern against
a text, modelling `re.IGNORECASE` matching of a literal alternation. -/
def startsWithCI : List Char → List Char → Bool
  | [], _ => true
  | _ :: _, [] => false
  | p :: ps, t :: ts => (t.toLower = p) && startsWithCI ps ts

/-- After a keyword match, `\b` requires the next character (if any) to be
a non-word character. -/
def boundaryAfter : List Char → Bool
  | [] => true
  | c :: _ => !isWordChar c

/-- Scan for a whole-word, case-insensitive occurrence of any English
keyword: at each position the previous character must not be a word
character (`prev`), the keyword must match, and the following character
must not be a word character. -/
def engSearch (kws : List (List Char)) : Bool → List Char → Bool
  | _, [] => false
  | prev, c :: rest =>
    (kws.any fun kw =>
      !prev && startsWithCI kw (c :: rest) && boundaryAfter (List.drop kw.length (c :: rest)))
    || engSearch kws (isWordChar c) rest

/-- Plain substring search for an Arabic keyword (no word boundary). -/
def subSearch (pat : List Char) : List Char → Bool
  | [] => startsWithCI pat []
  | c :: rest => startsWithCI pat (c :: rest) || subSearch pat rest

/-- The compiled combined regex of `JobFilter.__init__` (filters.py lines
65-77) as a Boolean search: a whole-word case-insensitive English keyword
match, or an Arabic keyword substring match. -/
def regexSearch (t : List Char) : Bool :=
  engSearch (ENGLISH_KEYWORDS.map String.data) false t
  || ARABIC_KEYWORDS.any (fun kw => subSearch kw.data t)

/-- Embedding of `JobFilter.is_it_job` (filters.py lines 87-96): empty
text is rejected, otherwise the text is NFKD-normalized and searched. -/
def is_it_job (text : String) : Bool :=
  if text = "" then false else regexSearch (normalize_text text).data

/-- The mathematical-bold rendering of the keyword `developer`
(U+1D41A-block lowercase letters), whose NFKD decomposition is the plain
ASCII keyword. -/
def stylDeveloper : String :=
  ⟨[Char.ofNat 0x1D41D, Char.ofNat 0x1D41E, Char.ofNat 0x1D42F,
    Char.ofNat 0x1D41E, Char.ofNat 0x1D425, Char.ofNat 0x1D428,
    Char.ofNat 0x1D429, Char.ofNat 0x1D41E, Char.ofNat 0x1D42B]⟩

end Filters

namespace Tg

/-- Characters allowed inside a URL scheme after the initial letter
(`urllib.parse` accepts letters, digits, `+`, `-`, `.`). -/
def isSchemeChar (c : Char) : Bool := c.isAlphanum || c = '+' || c = '-' || c = '.'

/-- Find the `:` terminating a valid scheme and return the remainder. -/
def findSchemeEnd : List Char → Option (List Char)
  | [] => none
  | c :: r => if c = ':' then some r else if isSchemeChar c then findSchemeEnd r else none

/-- Remove a leading `scheme:` when present (first character must be a
letter), as `urllib.parse.urlparse` does. -/
def stripScheme (u : List Char) : List Char :=
  match u with
  | [] => []
  | c :: rest =>
    if c.isAlpha then
      match findSchemeEnd rest with
      | some r => r
      | none => u
    else u

/-- The `netloc` and `path` components of `urllib.parse.urlparse`: after
an optional scheme, a leading `//` introduces the network location (up to
the next `/`, `?` or `#`); the path runs to the first `?` or `#`. -/
def netlocPath (u : List Char) : List Char × List Char :=
  let v := stripScheme u
  match v with
  | '/' :: '/' :: rest =>
    let netloc := rest.takeWhile (fun c => c ≠ '/' ∧ c ≠ '?' ∧ c ≠ '#')
    let after := rest.dropWhile (fun c => c ≠ '/' ∧ c ≠ '?' ∧ c ≠ '#')
    (netloc, after.takeWhile (fun c => c ≠ '?' ∧ c ≠ '#'))
  | _ => ([], v.takeWhile (fun c => c ≠ '?' ∧ c ≠ '#'))

/-- Known false-positive domains of `TelegramScraper.FALSE_POSITIVE_DOMAINS`
(telegram_scraper.py lines 79-83). -/
def FALSE_POSITIVE_DOMAINS : List (List Char) :=
  ["vb.net".data, "asp.net".data, "ado.net".data]

/-- Drop a leading `www.` from a domain (`str.removeprefix("www.")`). -/
def dropWWW (d : List Char) : List Char :=
  if d.take 4 = "www.".data then d.drop 4 else d

/-- Split a character list on a separator character (`str.split(".")`). -/
def splitOnChar (sep : Char) : List Char → List (List Char)
  | [] => [[]]
  | c :: r =>
    if c = sep then [] :: splitOnChar sep r
    else
      match splitOnChar sep r with
      | h :: t => (c :: h) :: t
      | [] => [[c]]

/-- Embedding of `TelegramScraper._is_valid_job_link` (telegram_scraper.py
lines 85-105): reject known false-positive domains, and reject URLs whose
path is empty or `/` while the (lowercased, `www.`-stripped) domain has
exactly two dot-separated segments with a first segment of at most three
characters.  (The Python `except` branch returning `True` is unreachable
in the model: the parse is total.) -/
def is_valid_job_link (url : String) : Bool :=
  let np := netlocPath url.data
  let domain := dropWWW (np.1.map Char.toLower)
  if FALSE_POSITIVE_DOMAINS.contains domain then false
  else if (np.2 = [] ∨ np.2 = ['/']) ∧ domain.contains '.' then
    let parts := splitOnChar '.' domain
    if parts.length = 2 ∧ (parts.headD []).length ≤ 3 then false else true
  else true

/-- One message block of the channel preview page, at the abstraction
boundary of the HTML parser: the plain text with `<br>` already replaced
by newlines, the `href` attributes of all anchors in document order
(absent attributes read as the empty string), and the wrapping node's
`data-post` attribute when present. -/
structure MsgData where
  text : String
  hrefs : List String
  dataPost : Option String
deriving Repr

/-- Embedding of `TelegramScraper._find_best_link` (telegram_scraper.py
lines 107-129): first surviving anchor link, else the `t.me` permalink
from the message's `data-post` identifier, else nothing. -/
def find_best_link (hrefs : List String) (dataPost : Option String) : Option String :=
  match hrefs.filter (fun h => h ≠ "" && is_valid_job_link h) with
  | v :: _ => some v
  | [] =>
    match dataPost with
    | some p => some ("https://t.me/" ++ p)
    | none => none

/-- Embedding of `TelegramScraper._parse_message` (telegram_scraper.py
lines 131-166): no surviving link means no posting (skipped, not an
error); otherwise the first non-blank line (truncated to 100 characters)
becomes the title, and `Job` construction validates the link URL. -/
def parse_message (channel : String) (m : MsgData) : Option Job :=
  match find_best_link m.hrefs m.dataPost with
  | none => none
  | some link =>
    let lines := (m.text.splitOn "\n").filterMap
      (fun ln => if ln.trim = "" then none else some ln.trim)
    match lines with
    | [] => none
    | l0 :: _ =>
      if is_http_url link then
        some { title := ⟨l0.data.take 100⟩, company := none, link := link,
               description := m.text,
               source := "Telegram (@" ++ channel ++ ")",
               position_level := none, location := none, deadline := none,
               experience := none, posted_date := none }
      else none

/-- Outcome of one fetch attempt of the single channel-preview HTTP
request: a parsed page (its message blocks), an `httpx.HTTPError`, or any
other (non-network) exception. -/
inductive FetchOutcome where
  | ok (msgs : List MsgData)
  | httpErr
  | otherErr
deriving Repr

/-- Embedding of the retry loop of `TelegramScraper.scrape`
(telegram_scraper.py lines 33-75), instrumented with the list of backoff
sleeps performed.  `fetch` is the network oracle giving the outcome of
each attempt; the fuel argument equals the number of remaining loop
iterations.  A success parses and returns the messages; an HTTP error on
the last attempt falls out of the loop; any other error breaks
immediately.  In all failure cases the (still empty) job list is
returned, never an exception.  The backoff before retry `attempt + 1` is
`initial_backoff * 2 ^ (attempt - 1)` seconds (modelled in whole
seconds). -/
def scrapeGo (channel : String) (fetch : Nat → FetchOutcome)
    (max_retries initial_backoff : Nat) : Nat → Nat → List Job × List Nat
  | _, 0 => ([], [])
  | attempt, fuel + 1 =>
    match fetch attempt with
    | .ok msgs => (msgs.filterMap (parse_message channel), [])
    | .httpErr =>
      if attempt = max_retries then ([], [])
      else
        let rest := scrapeGo channel fetch max_retries initial_backoff (attempt + 1) fuel
        (rest.1, initial_backoff * 2 ^ (attempt - 1) :: rest.2)
    | .otherErr => ([], [])

/-- `TelegramScraper.scrape`: attempts are numbered `1 .. max_retries`. -/
def scrape (channel : String) (fetch : Nat → FetchOutcome)
    (max_retries initial_backoff : Nat) : List Job × List Nat :=
  scrapeGo channel fetch max_retries initial_backoff 1 max_retries

/-- A sample channel message used for concrete evaluation. -/
def sampleMsg : MsgData :=
  ⟨"Python dev needed\nApply now", ["https://jobs.example.com/1"], none⟩

end Tg

namespace JobsPs

/-- A `datetime` value: compared field by field, lexicographically, as
Python compares `datetime` objects. -/
structure DateT where
  year : Nat
  month : Nat
  day : Nat
  hour : Nat
  minute : Nat
  second : Nat
  micro : Nat
deriving DecidableEq, Repr

/-- Strict lexicographic comparison of two `datetime` values. -/
def dtLtB (a b : DateT) : Bool :=
  if a.year ≠ b.year then a.year < b.year
  else if a.month ≠ b.month then a.month < b.month
  else if a.day ≠ b.day then a.day < b.day
  else if a.hour ≠ b.hour then a.hour < b.hour
  else if a.minute ≠ b.minute then a.minute < b.minute
  else if a.second ≠ b.second then a.second < b.second
  else a.micro < b.micro

/-- `datetime.max`: 9999-12-31 23:59:59.999999. -/
def dtMax : DateT := ⟨9999, 12, 31, 23, 59, 59, 999999⟩

/-- The decimal digit character for `n < 10`. -/
def digitChar (n : Nat) : Char := Char.ofNat (48 + n)

/-- Decimal rendering of a natural number (most significant digit first),
with fuel for termination; models Python `str(int)` / f-string formatting
of a non-negative integer. -/
def natReprAux : Nat → Nat → List Char
  | 0, _ => []
  | fuel + 1, n =>
    if n < 10 then [digitChar n]
    else natReprAux fuel (n / 10) ++ [digitChar (n % 10)]

/-- Decimal rendering of a natural number as a string. -/
def natRepr (n : Nat) : String := ⟨natReprAux (n + 1) n⟩

/-- The whitespace class of the regex `\s` (ASCII part), which is what
`strptime`-generated patterns use between fields. -/
def isSpaceChar (c : Char) : Bool :=
  c = ' ' || c = Char.ofNat 9 || c = Char.ofNat 10 || c = Char.ofNat 11
  || c = Char.ofNat 12 || c = Char.ofNat 13

/-- Drop leading whitespace. -/
def dropWs : List Char → List Char
  | [] => []
  | c :: r => if isSpaceChar c then dropWs r else c :: r

/-- Consume one-or-more whitespace characters (the `\s+` that `strptime`
compiles a literal space in the format string into). -/
def skipWs1 : List Char → Option (List Char)
  | [] => none
  | c :: r => if isSpaceChar c then some (dropWs r) else none

/-- Lex the `%d` day field.  CPython compiles `%d` to the pattern
alternation `3[01] | [12][0-9] | 0[1-9] | [1-9] | <space>[1-9]`,
preferring the two-character alternatives. -/
def lexDay : List Char → Option (Nat × List Char)
  | [] => none
  | [c] =>
    if '1' ≤ c ∧ c ≤ '9' then some (c.toNat - 48, []) else none
  | c1 :: c2 :: rest =>
    if c1 = '3' ∧ (c2 = '0' ∨ c2 = '1') then some (30 + (c2.toNat - 48), rest)
    else if (c1 = '1' ∨ c1 = '2') ∧ c2.isDigit then
      some ((c1.toNat - 48) * 10 + (c2.toNat - 48), rest)
    else if c1 = '0' ∧ '1' ≤ c2 ∧ c2 ≤ '9' then some (c2.toNat - 48, rest)
    else if '1' ≤ c1 ∧ c1 ≤ '9' then some (c1.toNat - 48, c2 :: rest)
    else if c1 = ' ' ∧ '1' ≤ c2 ∧ c2 ≤ '9' then some (c2.toNat - 48, rest)
    else none

/-- Month number of a lowercased three-letter abbreviation (`%b` in the C
locale, matched case-insensitively by `strptime`). -/
def monthNum (a b c : Char) : Option Nat :=
  match a.toLower, b.toLower, c.toLower with
  | 'j', 'a', 'n' => some 1
  | 'f', 'e', 'b' => some 2
  | 'm', 'a', 'r' => some 3
  | 'a', 'p', 'r' => some 4
  | 'm', 'a', 'y' => some 5
  | 'j', 'u', 'n' => some 6
  | 'j', 'u', 'l' => some 7
  | 'a', 'u', 'g' => some 8
  | 's', 'e', 'p' => some 9
  | 'o', 'c', 't' => some 10
  | 'n', 'o', 'v' => some 11
  | 'd', 'e', 'c' => some 12
  | _, _, _ => none

/-- Lex the `%b` month field: three characters forming an abbreviation.
A longer character run cannot match because the following `\s+` would
fail, so no backtracking arises. -/
def lexMonth : List Char → Option (Nat × List Char)
  | a :: b :: c :: r => (monthNum a b c).map (fun m => (m, r))
  | _ => none

/-- The `%Y` year field at end of pattern: exactly four digits (CPython
compiles `%Y` to four digit characters) followed by end of input, since
`strptime` requires the whole string to be consumed. -/
def yearParse : List Char → Option Nat
  | [a, b, c, d] =>
    if a.isDigit ∧ b.isDigit ∧ c.isDigit ∧ d.isDigit then
      some ((((a.toNat - 48) * 10 + (b.toNat - 48)) * 10 + (c.toNat - 48)) * 10
        + (d.toNat - 48))
    else none
  | _ => none

/-- Gregorian leap-year rule, as used by `datetime`. -/
def isLeap (y : Nat) : Bool := y % 4 = 0 && (y % 100 ≠ 0 || y % 400 = 0)

/-- Days in a month, as validated by the `datetime` constructor. -/
def daysInMonth (y m : Nat) : Nat :=
  if m = 2 then (if isLeap y then 29 else 28)
  else if m = 4 ∨ m = 6 ∨ m = 9 ∨ m = 11 then 30
  else 31

/-- Semantic validation performed by the `datetime(year, month, day)`
constructor after lexing (`strptime` raises `ValueError` on a day out of
range for the month, a month out of range, or a year below `MINYEAR`). -/
def mkValidDate (y m d : Nat) : Option DateT :=
  if 1 ≤ y ∧ y ≤ 9999 ∧ 1 ≤ m ∧ m ≤ 12 ∧ 1 ≤ d ∧ d ≤ daysInMonth y m then
    some ⟨y, m, d, 0, 0, 0, 0⟩
  else none

/-- `datetime.strptime(s, "%d %b %Y")`: day, whitespace, month
abbreviation, whitespace, four-digit year, end of input, then semantic
validation. -/
def strptimeDMY (s : String) : Option DateT :=
  (lexDay s.data).bind fun p =>
    (skipWs1 p.2).bind fun r2 =>
      (lexMonth r2).bind fun q =>
        (skipWs1 q.2).bind fun r4 =>
          (yearParse r4).bind fun y => mkValidDate y q.1 p.1

/-- Python `str.strip()`: drop leading and trailing whitespace. -/
def pyStripL (l : List Char) : List Char :=
  ((l.dropWhile isSpaceChar).reverse.dropWhile isSpaceChar).reverse

/-- The shared body of the two date parsers (`_parse_listing_date`,
jobsps_scraper.py lines 285-306, and `_parse_posted_date`, main.py lines
22-37): split on commas (`str.split(",")`), strip each part, then parse
"`day month year`" (three parts) or "`day month current-year`" (two
parts, the current year rendered in decimal); any other shape fails.
`cy` is the calendar year of `datetime.now()`. -/
def tryParseParts (cy : Nat) (s : String) : Option DateT :=
  match (Tg.splitOnChar ',' s.data).map pyStripL with
  | [p1, p2, p3] => strptimeDMY ⟨p1 ++ [' '] ++ p2 ++ [' '] ++ p3⟩
  | [p1, p2] => strptimeDMY ⟨p1 ++ [' '] ++ p2 ++ [' '] ++ (natRepr cy).data⟩
  | _ => none

/-- Embedding of `JobsPsScraper._parse_listing_date` (jobsps_scraper.py
lines 285-306): the empty string and every unparseable string yield no
date (`None`), not an error. -/
def parse_listing_date (cy : Nat) (s : String) : Option DateT :=
  if s = "" then none else tryParseParts cy s

/-- Embedding of `_parse_posted_date` (main.py lines 22-37): an
unparseable string yields `datetime.max`, pushing such jobs to the end of
the delivery order. -/
def parse_posted_date (cy : Nat) (s : String) : DateT :=
  (tryParseParts cy s).getD dtMax

/-- One row of the listing page at the abstraction boundary of the HTML
parser: the row anchor's `title` and `href` attributes (absent when the
attribute is missing), and the text extracted for company, location and
date cells (empty string when the node is absent). -/
structure RawRow where
  titleAttr : Option String
  hrefAttr : Option String
  company : String
  location : String
  dateStr : String
deriving Repr

/-- The partial record `_parse_listing_row` builds (the dict with keys
title, company, link, location, date_str). -/
structure Listing where
  title : String
  company : String
  link : String
  location : String
  dateStr : String
deriving Repr

/-- Embedding of `JobsPsScraper._parse_listing_row` (jobsps_scraper.py
lines 199-226): a row without a (truthy) title or href attribute yields
nothing; title and href are stripped. -/
def parse_listing_row (r : RawRow) : Option Listing :=
  match r.titleAttr, r.hrefAttr with
  | some t, some h =>
    if t = "" ∨ h = "" then none
    else some ⟨t.trim, r.company, h.trim, r.location, r.dateStr⟩
  | _, _ => none

/-- The row loop of `JobsPsScraper._scrape_listing_page` (jobsps_scraper.py
lines 135-147): unparseable rows are skipped; a row whose parsed date is
older than the cutoff sets the `has_old_jobs` flag and is dropped; every
other row is retained in order. -/
def classifyRows (cy : Nat) (cutoff : DateT) : List RawRow → List Listing × Bool
  | [] => ([], false)
  | r :: rest =>
    let tail := classifyRows cy cutoff rest
    match parse_listing_row r with
    | none => tail
    | some l =>
      match parse_listing_date cy l.dateStr with
      | some d => if dtLtB d cutoff then (tail.1, true) else (l :: tail.1, tail.2)
      | none => (l :: tail.1, tail.2)

/-- The retention rule as the specification states it: a parsed row is
kept exactly when its posted-date is not parsed as strictly older than
the cutoff (within the window, or unparseable/absent). -/
def keepRule (cy : Nat) (cutoff : DateT) (r : RawRow) : Option Listing :=
  (parse_listing_row r).bind fun l =>
    match parse_listing_date cy l.dateStr with
    | some d => if dtLtB d cutoff then none else some l
    | none => some l

/-- Whether a row parses to a posted-date strictly older than the cutoff. -/
def isOldRow (cy : Nat) (cutoff : DateT) (r : RawRow) : Bool :=
  match parse_listing_row r with
  | some l =>
    match parse_listing_date cy l.dateStr with
    | some d => dtLtB d cutoff
    | none => false
  | none => false

/-- A fetched listing page at the abstraction boundary of the HTML
parser: the `href` of the last pagination link (`ul.pagination
li:last-child a`), absent when the control or the attribute is missing,
and the job rows. -/
structure PageData where
  pagHref : Option String
  rows : List RawRow
deriving Repr

/-- Exact prefix test on character lists. -/
def startsWithList : List Char → List Char → Bool
  | [], _ => true
  | _ :: _, [] => false
  | p :: ps, t :: ts => p = t && startsWithList ps ts

/-- Substring containment (Python `in` on strings). -/
def containsSeq (pat : List Char) : List Char → Bool
  | [] => decide (pat = [])
  | c :: r => startsWithList pat (c :: r) || containsSeq pat r

/-- Split on a multi-character separator (Python `str.split(sep)` for a
non-empty `sep`), with fuel for termination (the fuel never runs out when
it starts at the list length). -/
def splitOnSeqAux (sep : List Char) : Nat → List Char → List (List Char)
  | _, [] => [[]]
  | 0, l => [l]
  | fuel + 1, c :: r =>
    if startsWithList sep (c :: r) ∧ sep ≠ [] then
      [] :: splitOnSeqAux sep fuel (List.drop (sep.length - 1) r)
    else
      match splitOnSeqAux sep fuel r with
      | h :: t => (c :: h) :: t
      | [] => [[c]]

/-- Split on a multi-character separator. -/
def splitOnSeq (sep l : List Char) : List (List Char) :=
  splitOnSeqAux sep l.length l

/-- Digits-only numeral value; `none` when empty or non-digit. -/
def digitsToNat (l : List Char) : Option Nat :=
  if l = [] then none
  else if l.all Char.isDigit then
    some (l.foldl (fun a c => a * 10 + (c.toNat - 48)) 0)
  else none

/-- Python `int(str)`: strip whitespace, optional sign, decimal digits
(numeric-literal underscores are not modelled and fail). -/
def pyInt (s : String) : Option Int :=
  match pyStripL s.data with
  | '+' :: ds => (digitsToNat ds).map Int.ofNat
  | '-' :: ds => (digitsToNat ds).map (fun n => -(Int.ofNat n))
  | ds => (digitsToNat ds).map Int.ofNat

/-- Embedding of `JobsPsScraper._get_total_pages` (jobsps_scraper.py lines
86-106): a failed fetch of the first listing page yields 0; a missing or
falsy pagination href, a href without a `page=` parameter, or an
unparseable page number yield the default 1; otherwise the integer after
the last `page=` occurrence. -/
def get_total_pages (page1 : Option PageData) : Int :=
  match page1 with
  | none => 0
  | some pd =>
    match pd.pagHref with
    | some href =>
      if href = "" then 1
      else if containsSeq "page=".data href.data then
        match pyInt ⟨((splitOnSeq "page=".data href.data).getLast?).getD []⟩ with
        | some n => n
        | none => 1
      else 1
    | none => 1

/-- Detail-page metadata as returned by `_extract_detail_metadata`
(jobsps_scraper.py lines 228-270): the dict entries that JSON-LD or the
HTML metadata box produced, each absent when neither source supplied it. -/
structure DetailData where
  position_level : Option String
  location : Option String
  deadline : Option String
  experience : Option String
deriving Repr

/-- Python `a or b` where `a` is an optional string and `b` a string:
first truthy value. -/
def pyOrStr (a : Option String) (b : String) : String :=
  match a with
  | some v => if v = "" then b else v
  | none => b

/-- Embedding of `JobsPsScraper._job_from_listing` (jobsps_scraper.py
lines 183-197): a `Job` from listing-page data only; construction fails
(returning `None` after a logged warning) exactly when pydantic rejects
the link. -/
def job_from_listing (l : Listing) : Option Job :=
  if is_http_url l.link then
    some { title := l.title, company := Db.py_or_none l.company, link := l.link,
           description := l.title, source := "Jobs.ps", position_level := none,
           location := some l.location, deadline := none, experience := none,
           posted_date := Db.py_or_none l.dateStr }
  else none

/-- The `Job` constructed by `_scrape_detail_page` from a listing and
extracted detail metadata (jobsps_scraper.py lines 166-178); fails when
pydantic rejects the link. -/
def mkDetailJob (l : Listing) (d : DetailData) : Option Job :=
  if is_http_url l.link then
    some { title := l.title, company := Db.py_or_none l.company, link := l.link,
           description := l.title, source := "Jobs.ps",
           position_level := d.position_level,
           location := some (pyOrStr d.location l.location),
           deadline := d.deadline, experience := d.experience,
           posted_date := Db.py_or_none l.dateStr }
  else none

/-- Embedding of `JobsPsScraper._scrape_detail_page` (jobsps_scraper.py
lines 149-181): a failed detail fetch falls back to the listing-only
record, as does a failed `Job` construction. -/
def scrape_detail_page (l : Listing) (html : Option DetailData) : Option Job :=
  match html with
  | none => job_from_listing l
  | some d =>
    match mkDetailJob l d with
    | some j => some j
    | none => job_from_listing l

/-- Fetch-and-classify for one listing page (`_scrape_listing_page`,
jobsps_scraper.py lines 108-147): a failed fetch returns no rows and a
clear `has_old_jobs` flag, letting the page loop continue. -/
def scrape_listing_page (fetch : Nat → Option PageData) (cy : Nat)
    (cutoff : DateT) (p : Nat) : List Listing × Bool :=
  match fetch p with
  | none => ([], false)
  | some pd => classifyRows cy cutoff pd.rows

/-- The jobs contributed by one listing page after detail enrichment. -/
def pageJobs (fetch : Nat → Option PageData) (dfetch : String → Option DetailData)
    (cy : Nat) (cutoff : DateT) (p : Nat) : List Job :=
  (scrape_listing_page fetch cy cutoff p).1.filterMap
    (fun l => scrape_detail_page l (dfetch l.link))

/-- Whether a listing page reported rows older than the cutoff. -/
def pageHasOld (fetch : Nat → Option PageData) (cy : Nat) (cutoff : DateT)
    (p : Nat) : Bool :=
  (scrape_listing_page fetch cy cutoff p).2

/-- The page loop of `JobsPsScraper.scrape` (jobsps_scraper.py lines
59-78), instrumented with the list of listing pages fetched: pages are
processed in order; after a page whose rows include one older than the
cutoff, the loop breaks (that page's retained rows are still detail
enriched and collected).  The fuel is the number of remaining pages. -/
def scrapeLoop (fetch : Nat → Option PageData) (dfetch : String → Option DetailData)
    (cy : Nat) (cutoff : DateT) : Nat → Nat → List Job × List Nat
  | _, 0 => ([], [])
  | p, fuel + 1 =>
    let jobsHere := pageJobs fetch dfetch cy cutoff p
    if pageHasOld fetch cy cutoff p then (jobsHere, [p])
    else
      let rest := scrapeLoop fetch dfetch cy cutoff (p + 1) fuel
      (jobsHere ++ rest.1, p :: rest.2)

/-- Embedding of `JobsPsScraper.scrape` (jobsps_scraper.py lines 34-84):
determine the total page count from the first listing page, then loop
over pages `1 .. total`.  `fetch` is the listing-page oracle (`None`
models a fetch that failed after all retries), `dfetch` the detail-page
oracle keyed by job link. -/
def scrape (fetch : Nat → Option PageData) (dfetch : String → Option DetailData)
    (cy : Nat) (cutoff : DateT) : List Job × List Nat :=
  scrapeLoop fetch dfetch cy cutoff 1 (get_total_pages (fetch 1)).toNat

/-- A recent listing row (posted 2026-02-24) for concrete evaluation. -/
def rowNew : RawRow :=
  ⟨some "DevOps Engineer", some "https://www.jobs.ps/en/1", "Acme", "Ramallah",
   "24, Feb"⟩

/-- A stale listing row (posted 2020-01-01) for concrete evaluation. -/
def rowOld : RawRow :=
  ⟨some "Old Role", some "https://www.jobs.ps/en/2", "Acme", "Gaza",
   "1, Jan, 2020"⟩

/-- A two-page site whose first page advertises five total pages and
contains only recent rows, while the second page contains a stale row. -/
def sampleSite : Nat → Option PageData := fun p =>
  if p = 1 then some ⟨some "/en/categories/it-jobs?page=5", [rowNew]⟩
  else if p = 2 then some ⟨none, [rowOld, rowNew]⟩
  else some ⟨none, []⟩

/-- The cutoff used with `sampleSite`: 2026-01-27 (thirty days before a
`now` of 2026-02-26). -/
def sampleCutoff : DateT := ⟨2026, 1, 27, 10, 0, 0, 0⟩

end JobsPs

end ITJA

namespace ITJA.Formatter

lemma isReserved_backslash : isReserved '\\' = true := by decide

lemma escape_step (c : Char) (l : List Char) :
    (c :: l).flatMap (fun c => if isReserved c then ['\\', c] else [c]) =
      (if isReserved c then ['\\', c] else [c]) ++
        l.flatMap (fun c => if isReserved c then ['\\', c] else [c]) := by
  simp [List.flatMap_cons]

lemma allEscaped_escape (l : List Char) :
    allEscaped (l.flatMap (fun c => if isReserved c then ['\\', c] else [c])) = true := by
  induction l with
  | nil => rfl
  | cons c r ih =>
    rw [escape_step]
    by_cases h : isReserved c = true
    · simp only [h, if_pos]
      simpa [allEscaped] using ih
    · have hne : c ≠ '\\' := by
        intro hc; rw [hc] at h; exact h isReserved_backslash
      simp only [h, if_neg, Bool.not_eq_true]
      cases htail : r.flatMap (fun c => if isReserved c then ['\\', c] else [c]) with
      | nil => simp [allEscaped, h]
      | cons d t =>
        rw [htail] at ih
        simp [allEscaped, hne, h, ih]

lemma unescape_escape (l : List Char) :
    unescape (l.flatMap (fun c => if isReserved c then ['\\', c] else [c])) = l := by
  induction l with
  | nil => rfl
  | cons c r ih =>
    rw [escape_step]
    by_cases h : isReserved c = true
    · simp only [h, if_pos]
      simpa [unescape] using ih
    · have hne : c ≠ '\\' := by
        intro hc; rw [hc] at h; exact h isReserved_backslash
      simp only [h, if_neg, Bool.not_eq_true]
      cases htail : r.flatMap (fun c => if isReserved c then ['\\', c] else [c]) with
      | nil =>
        rw [htail] at ih
        simp [unescape, ← ih]
      | cons d t =>
        rw [htail] at ih
        simp [unescape, hne, ih]

end ITJA.Formatter

namespace ITJA

/-- C6: `escape_markdown` prefixes every occurrence of a reserved
formatting-control character with a backslash: no reserved character of
the output is left without an escape marker directly before it
(`allEscaped`), stripping the markers recovers the input exactly
(`unescape`), and the empty string maps to the empty string. -/
theorem c6_escape_markdown :
    (∀ s : String, Formatter.allEscaped (Formatter.escape_markdown s).data = true)
    ∧ (∀ s : String, Formatter.unescape (Formatter.escape_markdown s).data = s.data)
    ∧ Formatter.escape_markdown "" = "" := by
  refine ⟨fun s => ?_, fun s => ?_, rfl⟩
  · unfold Formatter.escape_markdown
    by_cases h : s = ""
    · simp [h, Formatter.allEscaped]
    · simp only [h, if_neg]
      exact Formatter.allEscaped_escape s.data
  · unfold Formatter.escape_markdown
    by_cases h : s = ""
    · simp [h, Formatter.unescape]
    · simp only [h, if_neg]
      exact Formatter.unescape_escape s.data

/-- C1: `save_job` returns `true` and leaves exactly one row with the
job's link when no stored row had that link; returns `false` with the
stored rows (hence the row count) unchanged when a row with the same link
already exists; and any persistence failure other than the link-uniqueness
violation is raised (`Except.error`), never returned as `false`. -/
theorem c1_save_job (db : Db.DbState) (j : Job) :
    (db.any (fun r => r.link == j.link) = false →
      Db.save_job none db j = Except.ok (true, db ++ [j])
      ∧ (db ++ [j]).countP (fun r => r.link == j.link) = 1)
    ∧ (db.any (fun r => r.link == j.link) = true →
      Db.save_job none db j = Except.ok (false, db)
      ∧ db.countP (fun r => r.link == j.link) =
          db.countP (fun r => r.link == j.link))
    ∧ (∀ e : String, Db.save_job (some e) db j = Except.error e) := by
  refine ⟨fun hnew => ⟨?_, ?_⟩, fun hdup => ⟨?_, rfl⟩, fun e => rfl⟩
  · simp [Db.save_job, hnew]
  · have hzero : db.countP (fun r => r.link == j.link) = 0 := by
      rw [List.countP_eq_zero]
      intro a ha
      have := List.any_eq_false.mp hnew a ha
      simpa using this
    rw [List.countP_append, hzero]
    simp [List.countP_cons]
  · simp [Db.save_job, hdup]

/-- Witness for C1 at concrete inputs: an empty store accepts a job, the
resulting store rejects the same link as a duplicate, and an
environmental fault is raised as an error. -/
theorem c1_save_job_witness :
    (Db.save_job none [] sampleJob = Except.ok (true, [sampleJob])
      ∧ (([] : Db.DbState) ++ [sampleJob]).countP (fun r => r.link == sampleJob.link) = 1)
    ∧ (Db.save_job none [sampleJob] sampleJob = Except.ok (false, [sampleJob])
      ∧ [sampleJob].countP (fun r => r.link == sampleJob.link) =
          [sampleJob].countP (fun r => r.link == sampleJob.link))
    ∧ Db.save_job (some "disk full") [sampleJob] sampleJob = Except.error "disk full" :=
  ⟨by simpa using (c1_save_job [] sampleJob).1 (by decide),
   by simpa using (c1_save_job [sampleJob] sampleJob).2.1 (by decide),
   (c1_save_job [sampleJob] sampleJob).2.2 "disk full"⟩

/-- C2 counterexample: `format_job` never includes the description in the
message at all.  For a job whose 300-character description consists
entirely of `z` (exceeding any plausible length bound), the produced
message contains not a single `z`, so it cannot contain the description —
neither verbatim nor truncated at a word boundary with a marker. -/
theorem c2_counterexample_no_description :
    (Formatter.format_job longDescJob).data.contains 'z' = false
    ∧ longDescJob.description.data.contains 'z' = true
    ∧ 100 < longDescJob.description.data.length := by
  refine ⟨by decide, by decide, by decide⟩

/-- C2 (amended): `format_job` does not include the description field in
the notification message at all, for any length: its output is identical
for any two descriptions, so no truncation (and no verbatim inclusion)
ever takes place. -/
theorem c2_format_job_description_independent (j : Job) (d₁ d₂ : String) :
    Formatter.format_job { j with description := d₁ } =
      Formatter.format_job { j with description := d₂ } := rfl

lemma mk_append (l₁ l₂ : List Char) : (⟨l₁⟩ : String) ++ ⟨l₂⟩ = ⟨l₁ ++ l₂⟩ := rfl

lemma data_append (a b : String) : (a ++ b).data = a.data ++ b.data := by
  cases a; cases b; rfl

lemma eq_empty_iff_data (s : String) : s = "" ↔ s.data = [] := by
  cases s with
  | mk l =>
    constructor
    · intro h
      rw [h]
    · intro h
      have hl : l = [] := h
      rw [hl]

lemma normalize_append (a b : String) :
    Filters.normalize_text (a ++ b) =
      Filters.normalize_text a ++ Filters.normalize_text b := by
  unfold Filters.normalize_text
  rw [data_append, List.flatMap_append]
  rfl

lemma eng_kw_norm_fixed :
    ∀ kw ∈ Filters.ENGLISH_KEYWORDS, Filters.normalize_text kw = kw := by decide

lemma eng_kw_nonempty :
    ∀ kw ∈ Filters.ENGLISH_KEYWORDS, kw ≠ "" := by decide

/-- C5: for every English keyword and every stylized-Unicode rendering of
it whose NFKD decomposition equals the plain keyword, `is_it_job` returns
the same Boolean on a text containing the stylized rendering as on the
same text with the plain-ASCII keyword substituted. -/
theorem c5_stylized_matches_ascii (pre post kw styl : String)
    (hkw : kw ∈ Filters.ENGLISH_KEYWORDS)
    (hnorm : Filters.normalize_text styl = kw) :
    Filters.is_it_job (pre ++ styl ++ post) = Filters.is_it_job (pre ++ kw ++ post) := by
  have hkwfix : Filters.normalize_text kw = kw := eng_kw_norm_fixed kw hkw
  have hkwne : kw ≠ "" := eng_kw_nonempty kw hkw
  have hstylne : styl ≠ "" := by
    intro h
    apply hkwne
    rw [← hnorm, h]
    rfl
  have h1 : (pre ++ styl ++ post) ≠ "" := by
    intro h
    have hd := (eq_empty_iff_data _).mp h
    rw [data_append, data_append, List.append_eq_nil, List.append_eq_nil] at hd
    exact hstylne ((eq_empty_iff_data styl).mpr hd.1.2)
  have h2 : (pre ++ kw ++ post) ≠ "" := by
    intro h
    have hd := (eq_empty_iff_data _).mp h
    rw [data_append, data_append, List.append_eq_nil, List.append_eq_nil] at hd
    exact hkwne ((eq_empty_iff_data kw).mpr hd.1.2)
  have hnn : Filters.normalize_text (pre ++ styl ++ post) =
      Filters.normalize_text (pre ++ kw ++ post) := by
    rw [normalize_append, normalize_append, normalize_append, normalize_append,
      hnorm, hkwfix]
  unfold Filters.is_it_job
  rw [if_neg h1, if_neg h2, hnn]

/-- Witness for C5: the mathematical-bold rendering of `developer`
normalizes to the plain keyword, and the filter answers identically on
the stylized and plain texts. -/
theorem c5_stylized_matches_ascii_witness :
    ("developer" ∈ Filters.ENGLISH_KEYWORDS)
    ∧ Filters.normalize_text Filters.stylDeveloper = "developer"
    ∧ Filters.is_it_job ("Senior " ++ Filters.stylDeveloper ++ " wanted") =
        Filters.is_it_job ("Senior " ++ "developer" ++ " wanted") :=
  ⟨by decide, by decide,
   c5_stylized_matches_ascii "Senior " " wanted" "developer" Filters.stylDeveloper
     (by decide) (by decide)⟩

lemma tg_filter_nil (hrefs : List String)
    (h : ∀ x ∈ hrefs, x = "" ∨ Tg.is_valid_job_link x = false) :
    hrefs.filter (fun x => x ≠ "" && Tg.is_valid_job_link x) = [] := by
  rw [List.filter_eq_nil_iff]
  intro a ha
  rcases h a ha with h1 | h1 <;> simp [h1]

/-- C4: the chosen link is the first anchor link surviving the
false-positive rejection rules; with a rejected-domain link and a
legitimate link both present the legitimate one is chosen; with no
surviving anchor the permalink from the message's own `data-post`
identifier is used; with neither, `find_best_link` yields nothing and
`parse_message` skips the message without error.  A rejected-domain link
(`vb.net`) is indeed rejected and a genuine application link accepted. -/
theorem c4_find_best_link :
    (∀ (pre : List String) (v : String) (post : List String)
        (dp : Option String),
      (∀ x ∈ pre, x = "" ∨ Tg.is_valid_job_link x = false) →
      v ≠ "" → Tg.is_valid_job_link v = true →
      Tg.find_best_link (pre ++ v :: post) dp = some v)
    ∧ (∀ (hrefs : List String) (p : String),
      (∀ x ∈ hrefs, x = "" ∨ Tg.is_valid_job_link x = false) →
      Tg.find_best_link hrefs (some p) = some ("https://t.me/" ++ p))
    ∧ (∀ hrefs : List String,
      (∀ x ∈ hrefs, x = "" ∨ Tg.is_valid_job_link x = false) →
      Tg.find_best_link hrefs none = none)
    ∧ (∀ (channel text : String) (hrefs : List String),
      (∀ x ∈ hrefs, x = "" ∨ Tg.is_valid_job_link x = false) →
      Tg.parse_message channel ⟨text, hrefs, none⟩ = none)
    ∧ Tg.is_valid_job_link "http://vb.net/" = false
    ∧ Tg.is_valid_job_link "https://careers.example.com/apply/123" = true := by
  refine ⟨?_, ?_, ?_, ?_, by decide, by decide⟩
  · intro pre v post dp hpre hne hval
    unfold Tg.find_best_link
    rw [List.filter_append, tg_filter_nil pre hpre, List.filter_cons]
    simp [hne, hval]
  · intro hrefs p h
    unfold Tg.find_best_link
    rw [tg_filter_nil hrefs h]
  · intro hrefs h
    unfold Tg.find_best_link
    rw [tg_filter_nil hrefs h]
  · intro channel text hrefs h
    unfold Tg.parse_message
    have hfb : Tg.find_best_link hrefs none = none := by
      unfold Tg.find_best_link
      rw [tg_filter_nil hrefs h]
    rw [hfb]

/-- Witness for C4: a message carrying one rejected-domain link and one
legitimate link selects the legitimate one; with only the rejected link
the permalink is used; with neither, the message yields no posting. -/
theorem c4_find_best_link_witness :
    Tg.find_best_link ["http://vb.net/", "https://jobs.example.com/p/1"] (some "chan/55")
      = some "https://jobs.example.com/p/1"
    ∧ Tg.find_best_link ["http://vb.net/"] (some "chan/55") = some "https://t.me/chan/55"
    ∧ Tg.find_best_link ["http://vb.net/"] none = none
    ∧ Tg.parse_message "chan" ⟨"Some text", ["http://vb.net/"], none⟩ = none :=
  ⟨c4_find_best_link.1 ["http://vb.net/"] "https://jobs.example.com/p/1" [] (some "chan/55")
     (by intro x hx; simp at hx; rw [hx]; right; decide) (by decide) (by decide),
   c4_find_best_link.2.1 ["http://vb.net/"] "chan/55"
     (by intro x hx; simp at hx; rw [hx]; right; decide),
   c4_find_best_link.2.2.1 ["http://vb.net/"]
     (by intro x hx; simp at hx; rw [hx]; right; decide),
   c4_find_best_link.2.2.2.1 "chan" "Some text" ["http://vb.net/"]
     (by intro x hx; simp at hx; rw [hx]; right; decide)⟩

lemma tg_scrapeGo_http_run (channel : String) (fetch : Nat → Tg.FetchOutcome)
    (mr b : Nat) :
    ∀ (k attempt fuel : Nat),
      (∀ a, attempt ≤ a → a < attempt + k → fetch a = .httpErr) →
      attempt + k ≤ mr →
      Tg.scrapeGo channel fetch mr b attempt (fuel + k) =
        ((Tg.scrapeGo channel fetch mr b (attempt + k) fuel).1,
          (List.range' attempt k).map (fun a => b * 2 ^ (a - 1)) ++
            (Tg.scrapeGo channel fetch mr b (attempt + k) fuel).2) := by
  intro k
  induction k with
  | zero => intro attempt fuel _ _; simp
  | succ k ih =>
    intro attempt fuel hpre hle
    have hf : fetch attempt = .httpErr := hpre attempt le_rfl (by omega)
    have hne : attempt ≠ mr := by omega
    have hstep : fuel + (k + 1) = (fuel + k) + 1 := by omega
    rw [hstep]
    show Tg.scrapeGo channel fetch mr b attempt ((fuel + k) + 1) = _
    rw [Tg.scrapeGo, hf]
    simp only [hne, if_false, if_neg hne]
    have ihh := ih (attempt + 1) fuel
      (fun a h1 h2 => hpre a (by omega) (by omega)) (by omega)
    have hacc : attempt + 1 + k = attempt + (k + 1) := by omega
    rw [hacc] at ihh
    rw [ihh, List.range'_succ]
    simp

/-- C8: the single channel-preview fetch is retried on network (HTTP)
errors up to `max_retries` with exponential backoff sleeps of
`initial_backoff * 2 ^ (attempt - 1)` seconds; exhausting the retries
returns the empty list (no exception); a non-network error aborts
immediately, without further attempts or sleeps, also yielding the empty
list; a success after `k - 1` network failures returns the parsed
messages after exactly the `k - 1` backoff sleeps. -/
theorem c8_scrape_retry :
    (∀ (channel : String) (fetch : Nat → Tg.FetchOutcome) (mr b k : Nat)
        (msgs : List Tg.MsgData),
      1 ≤ k → k ≤ mr → (∀ a, 1 ≤ a → a < k → fetch a = .httpErr) →
      fetch k = .ok msgs →
      Tg.scrape channel fetch mr b =
        (msgs.filterMap (Tg.parse_message channel),
         (List.range' 1 (k - 1)).map (fun a => b * 2 ^ (a - 1))))
    ∧ (∀ (channel : String) (fetch : Nat → Tg.FetchOutcome) (mr b : Nat),
      1 ≤ mr → (∀ a, 1 ≤ a → a ≤ mr → fetch a = .httpErr) →
      Tg.scrape channel fetch mr b =
        ([], (List.range' 1 (mr - 1)).map (fun a => b * 2 ^ (a - 1))))
    ∧ (∀ (channel : String) (fetch : Nat → Tg.FetchOutcome) (mr b k : Nat),
      1 ≤ k → k ≤ mr → (∀ a, 1 ≤ a → a < k → fetch a = .httpErr) →
      fetch k = .otherErr →
      Tg.scrape channel fetch mr b =
        ([], (List.range' 1 (k - 1)).map (fun a => b * 2 ^ (a - 1)))) := by
  refine ⟨?_, ?_, ?_⟩
  · intro channel fetch mr b k msgs hk1 hkmr hpre hok
    unfold Tg.scrape
    have hmr : mr = (mr - k + 1) + (k - 1) := by omega
    nth_rewrite 2 [hmr]
    rw [tg_scrapeGo_http_run channel fetch mr b (k - 1) 1 (mr - k + 1)
      (fun a h1 h2 => hpre a h1 (by omega)) (by omega)]
    have h1k : 1 + (k - 1) = k := by omega
    rw [h1k]
    have hfuel : mr - k + 1 = (mr - k) + 1 := by omega
    rw [hfuel, Tg.scrapeGo, hok]
    simp
  · intro channel fetch mr b hmr1 hall
    unfold Tg.scrape
    have hmr : mr = 1 + (mr - 1) := by omega
    nth_rewrite 2 [hmr]
    rw [tg_scrapeGo_http_run channel fetch mr b (mr - 1) 1 1
      (fun a h1 h2 => hall a h1 (by omega)) (by omega)]
    have h1k : 1 + (mr - 1) = mr := by omega
    rw [h1k]
    show ((Tg.scrapeGo channel fetch mr b mr (0 + 1)).1, _) = _
    rw [Tg.scrapeGo, hall mr hmr1 le_rfl]
    simp
  · intro channel fetch mr b k hk1 hkmr hpre hother
    unfold Tg.scrape
    have hmr : mr = (mr - k + 1) + (k - 1) := by omega
    nth_rewrite 2 [hmr]
    rw [tg_scrapeGo_http_run channel fetch mr b (k - 1) 1 (mr - k + 1)
      (fun a h1 h2 => hpre a h1 (by omega)) (by omega)]
    have h1k : 1 + (k - 1) = k := by omega
    rw [h1k]
    have hfuel : mr - k + 1 = (mr - k) + 1 := by omega
    rw [hfuel, Tg.scrapeGo, hother]
    simp

/-- Witness for C8 with `max_retries = 3`, `initial_backoff = 2`: success
on attempt 3 after two network failures (sleeps 2 s and 4 s), exhaustion of
all three attempts, and an immediate abort on a non-network error at
attempt 2. -/
theorem c8_scrape_retry_witness :
    Tg.scrape "c" (fun a => if a = 3 then .ok [Tg.sampleMsg] else .httpErr) 3 2 =
      ([Tg.sampleMsg].filterMap (Tg.parse_message "c"),
       (List.range' 1 2).map (fun a => 2 * 2 ^ (a - 1)))
    ∧ Tg.scrape "c" (fun _ => .httpErr) 3 2 =
      ([], (List.range' 1 2).map (fun a => 2 * 2 ^ (a - 1)))
    ∧ Tg.scrape "c" (fun a => if a = 2 then .otherErr else .httpErr) 3 2 =
      ([], (List.range' 1 1).map (fun a => 2 * 2 ^ (a - 1))) :=
  ⟨c8_scrape_retry.1 "c" _ 3 2 3 [Tg.sampleMsg] (by omega) (by omega)
     (by intro a h1 h2; interval_cases a <;> rfl) rfl,
   c8_scrape_retry.2.1 "c" _ 3 2 (by omega) (fun a _ _ => rfl),
   c8_scrape_retry.2.2 "c" _ 3 2 2 (by omega) (by omega)
     (by intro a h1 h2; interval_cases a; rfl) rfl⟩

lemma digitChar_toNat {n : Nat} (h : n < 10) :
    (JobsPs.digitChar n).toNat = 48 + n := by
  interval_cases n <;> decide

lemma digitChar_isDigit {n : Nat} (h : n < 10) :
    (JobsPs.digitChar n).isDigit = true := by
  interval_cases n <;> decide

lemma digitChar_not_space {n : Nat} (h : n < 10) :
    JobsPs.isSpaceChar (JobsPs.digitChar n) = false := by
  interval_cases n <;> decide

lemma natReprAux_four (k n : Nat) (h1 : 1000 ≤ n) (h2 : n ≤ 9999) :
    JobsPs.natReprAux (k + 4) n =
      [JobsPs.digitChar (n / 1000), JobsPs.digitChar (n / 100 % 10),
       JobsPs.digitChar (n / 10 % 10), JobsPs.digitChar (n % 10)] := by
  have ha : ¬ n < 10 := by omega
  have hb : ¬ n / 10 < 10 := by omega
  have hc : ¬ n / 10 / 10 < 10 := by omega
  have hd : n / 10 / 10 / 10 < 10 := by omega
  simp only [JobsPs.natReprAux]
  rw [if_neg ha, if_neg hb, if_neg hc, if_pos hd]
  have e1 : n / 10 / 10 / 10 = n / 1000 := by
    rw [Nat.div_div_eq_div_mul, Nat.div_div_eq_div_mul]
  have e2 : n / 10 / 10 = n / 100 := by rw [Nat.div_div_eq_div_mul]
  rw [e1, e2]
  simp

lemma natRepr_four (y : Nat) (h1 : 1000 ≤ y) (h2 : y ≤ 9999) :
    (JobsPs.natRepr y).data =
      [JobsPs.digitChar (y / 1000), JobsPs.digitChar (y / 100 % 10),
       JobsPs.digitChar (y / 10 % 10), JobsPs.digitChar (y % 10)] := by
  show JobsPs.natReprAux (y + 1) y = _
  have h4 : y + 1 = (y - 3) + 4 := by omega
  rw [h4]
  exact natReprAux_four (y - 3) y h1 h2

lemma yearParse_natRepr (y : Nat) (h1 : 1000 ≤ y) (h2 : y ≤ 9999) :
    JobsPs.yearParse (JobsPs.natRepr y).data = some y := by
  rw [natRepr_four y h1 h2]
  have d1 : y / 1000 < 10 := by omega
  have d2 : y / 100 % 10 < 10 := by omega
  have d3 : y / 10 % 10 < 10 := by omega
  have d4 : y % 10 < 10 := by omega
  simp only [JobsPs.yearParse]
  rw [if_pos ⟨digitChar_isDigit d1, digitChar_isDigit d2,
    digitChar_isDigit d3, digitChar_isDigit d4⟩]
  rw [digitChar_toNat d1, digitChar_toNat d2, digitChar_toNat d3,
    digitChar_toNat d4]
  congr 1
  omega

lemma dropWs_natRepr (y : Nat) (h1 : 1000 ≤ y) (h2 : y ≤ 9999) :
    JobsPs.dropWs (JobsPs.natRepr y).data = (JobsPs.natRepr y).data := by
  rw [natRepr_four y h1 h2]
  have d1 : y / 1000 < 10 := by omega
  unfold JobsPs.dropWs
  rw [if_neg (by rw [digitChar_not_space d1]; exact Bool.false_ne_true)]

lemma strptime_24Feb (y : Nat) (h1 : 1000 ≤ y) (h2 : y ≤ 9999) :
    JobsPs.strptimeDMY ⟨'2' :: '4' :: ' ' :: 'F' :: 'e' :: 'b' :: ' ' ::
        (JobsPs.natRepr y).data⟩ =
      some ⟨y, 2, 24, 0, 0, 0, 0⟩ := by
  unfold JobsPs.strptimeDMY
  have hday : JobsPs.lexDay ('2' :: '4' :: ' ' :: 'F' :: 'e' :: 'b' :: ' ' ::
      (JobsPs.natRepr y).data) =
      some (24, ' ' :: 'F' :: 'e' :: 'b' :: ' ' :: (JobsPs.natRepr y).data) := rfl
  rw [hday]
  simp only [Option.some_bind]
  have hws1 : JobsPs.skipWs1 (' ' :: 'F' :: 'e' :: 'b' :: ' ' ::
      (JobsPs.natRepr y).data) =
      some ('F' :: 'e' :: 'b' :: ' ' :: (JobsPs.natRepr y).data) := rfl
  rw [hws1]
  simp only [Option.some_bind]
  have hmon : JobsPs.lexMonth ('F' :: 'e' :: 'b' :: ' ' :: (JobsPs.natRepr y).data) =
      some (2, ' ' :: (JobsPs.natRepr y).data) := rfl
  rw [hmon]
  simp only [Option.some_bind]
  have hws2 : JobsPs.skipWs1 (' ' :: (JobsPs.natRepr y).data) =
      some (JobsPs.natRepr y).data := by
    show some (JobsPs.dropWs (JobsPs.natRepr y).data) = _
    rw [dropWs_natRepr y h1 h2]
  rw [hws2]
  simp only [Option.some_bind]
  rw [yearParse_natRepr y h1 h2]
  simp only [Option.some_bind]
  unfold JobsPs.mkValidDate JobsPs.daysInMonth
  rw [if_pos]
  refine ⟨by omega, by omega, by omega, by omega, by omega, ?_⟩
  cases JobsPs.isLeap y <;> simp

lemma daysInMonth_le (y m : Nat) : JobsPs.daysInMonth y m ≤ 31 := by
  unfold JobsPs.daysInMonth
  split_ifs <;> omega

lemma strptime_bounds (s : String) (dt : JobsPs.DateT)
    (h : JobsPs.strptimeDMY s = some dt) :
    dt.year ≤ 9999 ∧ dt.month ≤ 12 ∧ dt.day ≤ 31 ∧ dt.hour = 0
      ∧ dt.minute = 0 ∧ dt.second = 0 ∧ dt.micro = 0 := by
  unfold JobsPs.strptimeDMY at h
  simp only [Option.bind_eq_some] at h
  obtain ⟨p, hp, r2, hr2, q, hq, r4, hr4, yy, hy, h⟩ := h
  unfold JobsPs.mkValidDate at h
  split_ifs at h with hc
  cases h
  exact ⟨hc.2.1, hc.2.2.2.1, le_trans hc.2.2.2.2.2 (daysInMonth_le yy q.1),
    rfl, rfl, rfl, rfl⟩

lemma dtLtB_max (dt : JobsPs.DateT) (hy : dt.year ≤ 9999) (hm : dt.month ≤ 12)
    (hd : dt.day ≤ 31) (hh : dt.hour = 0) :
    JobsPs.dtLtB dt JobsPs.dtMax = true := by
  unfold JobsPs.dtLtB JobsPs.dtMax
  split_ifs <;> simp_all <;> omega

lemma tryParse_strptime (cy : Nat) (s : String) (d : JobsPs.DateT)
    (h : JobsPs.tryParseParts cy s = some d) :
    ∃ s', JobsPs.strptimeDMY s' = some d := by
  unfold JobsPs.tryParseParts at h
  split at h
  · exact ⟨_, h⟩
  · exact ⟨_, h⟩
  · exact absurd h (by simp)

/-- C7: `"24, Feb"` parses to day 24, month 2 and the current calendar
year; `"16, Nov, 2025"` parses to 2025-11-16; every unparseable string
yields `datetime.max` from the delivery-ordering parser (a total
function — nothing is raised) and that sentinel sorts strictly after
every successfully parsed date; the scraper's listing-date parser agrees
with the shared parse everywhere, so an unparseable date is treated as
absent (`none`) for cutoff purposes. -/
theorem c7_date_parsing :
    (∀ y : Nat, 1000 ≤ y → y ≤ 9999 →
      JobsPs.parse_posted_date y "24, Feb" = ⟨y, 2, 24, 0, 0, 0, 0⟩)
    ∧ (∀ y : Nat, JobsPs.parse_posted_date y "16, Nov, 2025" =
        ⟨2025, 11, 16, 0, 0, 0, 0⟩)
    ∧ (∀ (cy : Nat) (s : String), JobsPs.tryParseParts cy s = none →
        JobsPs.parse_posted_date cy s = JobsPs.dtMax)
    ∧ (∀ (cy : Nat) (s : String) (d : JobsPs.DateT),
        JobsPs.tryParseParts cy s = some d →
        JobsPs.dtLtB d JobsPs.dtMax = true)
    ∧ (∀ (cy : Nat) (s : String),
        JobsPs.parse_listing_date cy s = JobsPs.tryParseParts cy s) := by
  refine ⟨?_, ?_, ?_, ?_, ?_⟩
  · intro y h1 h2
    unfold JobsPs.parse_posted_date
    have hparts : JobsPs.tryParseParts y "24, Feb" =
        JobsPs.strptimeDMY ⟨'2' :: '4' :: ' ' :: 'F' :: 'e' :: 'b' :: ' ' ::
          (JobsPs.natRepr y).data⟩ := rfl
    rw [hparts, strptime_24Feb y h1 h2]
    rfl
  · intro y
    rfl
  · intro cy s h
    unfold JobsPs.parse_posted_date
    rw [h]
    rfl
  · intro cy s d h
    obtain ⟨s', hs'⟩ := tryParse_strptime cy s d h
    obtain ⟨hy, hm, hd, hh, _, _, _⟩ := strptime_bounds s' d hs'
    exact dtLtB_max d hy hm hd hh
  · intro cy s
    unfold JobsPs.parse_listing_date
    by_cases h : s = ""
    · rw [if_pos h, h]
      rfl
    · rw [if_neg h]

/-- Witness for C7 at the current year 2026 and concrete strings: the two
documented parses, the sentinel on an unparseable string, the sentinel
ordering, and listing-parser agreement. -/
theorem c7_date_parsing_witness :
    JobsPs.parse_posted_date 2026 "24, Feb" = ⟨2026, 2, 24, 0, 0, 0, 0⟩
    ∧ JobsPs.parse_posted_date 2026 "16, Nov, 2025" = ⟨2025, 11, 16, 0, 0, 0, 0⟩
    ∧ JobsPs.parse_posted_date 2026 "garbage" = JobsPs.dtMax
    ∧ JobsPs.dtLtB ⟨2025, 11, 16, 0, 0, 0, 0⟩ JobsPs.dtMax = true
    ∧ JobsPs.parse_listing_date 2026 "not a date" =
        JobsPs.tryParseParts 2026 "not a date" :=
  ⟨c7_date_parsing.1 2026 (by omega) (by omega),
   c7_date_parsing.2.1 2026,
   c7_date_parsing.2.2.1 2026 "garbage" rfl,
   c7_date_parsing.2.2.2.1 2026 "16, Nov, 2025" ⟨2025, 11, 16, 0, 0, 0, 0⟩ rfl,
   c7_date_parsing.2.2.2.2 2026 "not a date"⟩

lemma classifyRows_eq (cy : Nat) (cutoff : JobsPs.DateT) (rows : List JobsPs.RawRow) :
    JobsPs.classifyRows cy cutoff rows =
      (rows.filterMap (JobsPs.keepRule cy cutoff),
       rows.any (JobsPs.isOldRow cy cutoff)) := by
  induction rows with
  | nil => rfl
  | cons r rest ih =>
    simp only [JobsPs.classifyRows, ih, List.filterMap_cons, List.any_cons]
    unfold JobsPs.keepRule JobsPs.isOldRow
    cases hpr : JobsPs.parse_listing_row r with
    | none => simp
    | some l =>
      cases hpd : JobsPs.parse_listing_date cy l.dateStr with
      | none => simp [hpd]
      | some d =>
        cases hlt : JobsPs.dtLtB d cutoff with
        | true => simp [hpd, hlt]
        | false => simp [hpd, hlt]

lemma scrapeLoop_stops (fetch : Nat → Option JobsPs.PageData)
    (dfetch : String → Option JobsPs.DetailData) (cy : Nat)
    (cutoff : JobsPs.DateT) :
    ∀ (k p fuel : Nat),
      (∀ j, j < k → JobsPs.pageHasOld fetch cy cutoff (p + j) = false) →
      JobsPs.pageHasOld fetch cy cutoff (p + k) = true →
      k < fuel →
      JobsPs.scrapeLoop fetch dfetch cy cutoff p fuel =
        ((List.range' p (k + 1)).flatMap (JobsPs.pageJobs fetch dfetch cy cutoff),
         List.range' p (k + 1)) := by
  intro k
  induction k with
  | zero =>
    intro p fuel _ hold hfuel
    obtain ⟨f, rfl⟩ : ∃ f, fuel = f + 1 := ⟨fuel - 1, by omega⟩
    rw [Nat.add_zero] at hold
    simp only [JobsPs.scrapeLoop, hold, if_true]
    simp [List.range']
  | succ k ih =>
    intro p fuel hpre hold hfuel
    obtain ⟨f, rfl⟩ : ∃ f, fuel = f + 1 := ⟨fuel - 1, by omega⟩
    have h0 : JobsPs.pageHasOld fetch cy cutoff p = false := by
      simpa using hpre 0 (by omega)
    simp only [JobsPs.scrapeLoop, h0, Bool.false_eq_true, if_false]
    have ihh := ih (p + 1) f
      (fun j hj => by
        have := hpre (j + 1) (by omega)
        simpa [Nat.add_assoc, Nat.add_comm 1 j] using this)
      (by
        have := hold
        have hacc : p + (k + 1) = p + 1 + k := by omega
        rwa [hacc] at this)
      (by omega)
    rw [ihh]
    have hr : List.range' p (k + 1 + 1) = p :: List.range' (p + 1) (k + 1) := by
      rw [List.range'_succ]
    rw [hr]
    simp

/-- C3: (a) classifying the rows of a listing page retains exactly the
rows whose parsed posted-date is not older than the cutoff — within the
window, or with an unparseable/absent date string — and reports old rows
exactly when one parses older than the cutoff; (b) as soon as some page
`i` (the first such) contains a row older than the cutoff, the page loop
fetches exactly pages `1 .. i` and returns precisely the retained,
detail-enriched rows of those pages: no later listing page is fetched. -/
theorem c3_cutoff_window_and_pagination :
    (∀ (cy : Nat) (cutoff : JobsPs.DateT) (rows : List JobsPs.RawRow),
      JobsPs.classifyRows cy cutoff rows =
        (rows.filterMap (JobsPs.keepRule cy cutoff),
         rows.any (JobsPs.isOldRow cy cutoff)))
    ∧ (∀ (fetch : Nat → Option JobsPs.PageData)
        (dfetch : String → Option JobsPs.DetailData) (cy : Nat)
        (cutoff : JobsPs.DateT) (i : Nat),
      1 ≤ i → i ≤ (JobsPs.get_total_pages (fetch 1)).toNat →
      (∀ p, 1 ≤ p → p < i → JobsPs.pageHasOld fetch cy cutoff p = false) →
      JobsPs.pageHasOld fetch cy cutoff i = true →
      JobsPs.scrape fetch dfetch cy cutoff =
        ((List.range' 1 i).flatMap (JobsPs.pageJobs fetch dfetch cy cutoff),
         List.range' 1 i)) := by
  refine ⟨classifyRows_eq, ?_⟩
  intro fetch dfetch cy cutoff i h1 htot hpre hold
  unfold JobsPs.scrape
  have hk := scrapeLoop_stops fetch dfetch cy cutoff (i - 1) 1
    ((JobsPs.get_total_pages (fetch 1)).toNat)
    (fun j hj => hpre (1 + j) (by omega) (by omega))
    (by
      have hacc : 1 + (i - 1) = i := by omega
      rwa [hacc])
    (by omega)
  have hi : i - 1 + 1 = i := by omega
  rwa [hi] at hk

/-- Witness for C3 on a concrete two-page site: page 1 has only recent
rows, page 2 contains a stale row, five pages are advertised — the loop
fetches exactly pages 1 and 2 and returns their retained rows. -/
theorem c3_cutoff_window_and_pagination_witness :
    JobsPs.classifyRows 2026 JobsPs.sampleCutoff [JobsPs.rowOld, JobsPs.rowNew] =
      ([JobsPs.rowOld, JobsPs.rowNew].filterMap
        (JobsPs.keepRule 2026 JobsPs.sampleCutoff),
       [JobsPs.rowOld, JobsPs.rowNew].any
        (JobsPs.isOldRow 2026 JobsPs.sampleCutoff))
    ∧ JobsPs.scrape JobsPs.sampleSite (fun _ => none) 2026 JobsPs.sampleCutoff =
        ((List.range' 1 2).flatMap
          (JobsPs.pageJobs JobsPs.sampleSite (fun _ => none) 2026 JobsPs.sampleCutoff),
         List.range' 1 2) :=
  ⟨c3_cutoff_window_and_pagination.1 2026 JobsPs.sampleCutoff
     [JobsPs.rowOld, JobsPs.rowNew],
   c3_cutoff_window_and_pagination.2 JobsPs.sampleSite (fun _ => none) 2026
     JobsPs.sampleCutoff 2 (by omega) (by decide)
     (by intro p hp1 hp2; interval_cases p; rfl) rfl⟩

lemma job_from_listing_desc (l : JobsPs.Listing) (j : Job)
    (h : JobsPs.job_from_listing l = some j) : j.description = j.title := by
  unfold JobsPs.job_from_listing at h
  split_ifs at h
  cases h
  rfl

lemma scrape_detail_page_desc (l : JobsPs.Listing) (hd : Option JobsPs.DetailData)
    (j : Job) (h : JobsPs.scrape_detail_page l hd = some j) :
    j.description = j.title := by
  cases hd with
  | none => exact job_from_listing_desc l j h
  | some d =>
    have h' : (match JobsPs.mkDetailJob l d with
        | some j => some j
        | none => JobsPs.job_from_listing l) = some j := h
    cases hmk : JobsPs.mkDetailJob l d with
    | none =>
      rw [hmk] at h'
      exact job_from_listing_desc l j h'
    | some j' =>
      rw [hmk] at h'
      cases h'
      unfold JobsPs.mkDetailJob at hmk
      split_ifs at hmk
      cases hmk
      rfl

lemma scrapeLoop_desc (fetch : Nat → Option JobsPs.PageData)
    (dfetch : String → Option JobsPs.DetailData) (cy : Nat)
    (cutoff : JobsPs.DateT) :
    ∀ (fuel p : Nat) (j : Job),
      j ∈ (JobsPs.scrapeLoop fetch dfetch cy cutoff p fuel).1 →
      j.description = j.title := by
  intro fuel
  induction fuel with
  | zero => intro p j h; simp [JobsPs.scrapeLoop] at h
  | succ f ih =>
    intro p j h
    have hpage : ∀ j : Job, j ∈ JobsPs.pageJobs fetch dfetch cy cutoff p →
        j.description = j.title := by
      intro j hj
      unfold JobsPs.pageJobs at hj
      obtain ⟨l, _, hl⟩ := List.mem_filterMap.mp hj
      exact scrape_detail_page_desc l (dfetch l.link) j hl
    rw [JobsPs.scrapeLoop] at h
    by_cases hold : JobsPs.pageHasOld fetch cy cutoff p = true
    · rw [if_pos hold] at h
      exact hpage j h
    · rw [if_neg hold] at h
      rcases List.mem_append.mp h with hmem | hmem
      · exact hpage j hmem
      · exact ih (p + 1) j hmem

/-- C9: every `Job` the web-board scraper produces — from the enriched
detail page, from the listing-only fallback, or anywhere in the output of
the full page loop — has its description equal to its title; the posting
body is never captured into the description. -/
theorem c9_description_equals_title :
    (∀ (l : JobsPs.Listing) (hd : Option JobsPs.DetailData) (j : Job),
      JobsPs.scrape_detail_page l hd = some j → j.description = j.title)
    ∧ (∀ (l : JobsPs.Listing) (j : Job),
      JobsPs.job_from_listing l = some j → j.description = j.title)
    ∧ (∀ (fetch : Nat → Option JobsPs.PageData)
        (dfetch : String → Option JobsPs.DetailData) (cy : Nat)
        (cutoff : JobsPs.DateT) (j : Job),
      j ∈ (JobsPs.scrape fetch dfetch cy cutoff).1 → j.description = j.title) :=
  ⟨scrape_detail_page_desc, job_from_listing_desc,
   fun fetch dfetch cy cutoff j h => scrapeLoop_desc fetch dfetch cy cutoff _ 1 j h⟩

/-- Witness for C9: a concrete listing enriched with detail data, the
listing-only fallback, and a job of the concrete site scrape all carry
their title as description. -/
theorem c9_description_equals_title_witness :
    (JobsPs.scrape_detail_page
        ⟨"DevOps Engineer", "Acme", "https://www.jobs.ps/en/1", "Ramallah", "24, Feb"⟩
        (some ⟨some "Mid", some "Nablus", some "2026-03-01", some "3 Years"⟩) =
      some { title := "DevOps Engineer", company := some "Acme",
             link := "https://www.jobs.ps/en/1", description := "DevOps Engineer",
             source := "Jobs.ps", position_level := some "Mid",
             location := some "Nablus", deadline := some "2026-03-01",
             experience := some "3 Years", posted_date := some "24, Feb" })
    ∧ (∀ j : Job,
        JobsPs.job_from_listing
          ⟨"Old Role", "Acme", "https://www.jobs.ps/en/2", "Gaza", "1, Jan, 2020"⟩ =
          some j → j.description = j.title) :=
  ⟨by decide,
   fun j h => c9_description_equals_title.2.1
     ⟨"Old Role", "Acme", "https://www.jobs.ps/en/2", "Gaza", "1, Jan, 2020"⟩ j h⟩

/-- C10: when the fetch of the first listing page yields no content after
all retries, `get_total_pages` returns 0 — not the default 1 used when
the pagination control is absent (no href) or unparseable (no `page=`
parameter, or a non-numeric value) — so the page loop of `scrape`
iterates zero times: the result is the empty list and no listing page is
processed at all. -/
theorem c10_failed_first_fetch :
    (∀ (fetch : Nat → Option JobsPs.PageData)
        (dfetch : String → Option JobsPs.DetailData) (cy : Nat)
        (cutoff : JobsPs.DateT),
      fetch 1 = none →
      JobsPs.get_total_pages (fetch 1) = 0
      ∧ JobsPs.scrape fetch dfetch cy cutoff = ([], []))
    ∧ (∀ pd : JobsPs.PageData, pd.pagHref = none →
        JobsPs.get_total_pages (some pd) = 1)
    ∧ (∀ (pd : JobsPs.PageData) (href : String), pd.pagHref = some href →
        JobsPs.containsSeq "page=".data href.data = false →
        JobsPs.get_total_pages (some pd) = 1)
    ∧ (∀ (pd : JobsPs.PageData) (href : String), pd.pagHref = some href →
        JobsPs.pyInt ⟨((JobsPs.splitOnSeq "page=".data href.data).getLast?).getD []⟩
          = none →
        JobsPs.get_total_pages (some pd) = 1) := by
  refine ⟨?_, ?_, ?_, ?_⟩
  · intro fetch dfetch cy cutoff h
    refine ⟨by rw [h]; rfl, ?_⟩
    unfold JobsPs.scrape
    rw [h]
    rfl
  · intro pd h
    obtain ⟨ph, rows⟩ := pd
    have h' : ph = none := h
    subst h'
    rfl
  · intro pd href h hni
    obtain ⟨ph, rows⟩ := pd
    have h' : ph = some href := h
    subst h'
    by_cases he : href = ""
    · simp [JobsPs.get_total_pages, he]
    · simp [JobsPs.get_total_pages, he, hni]
  · intro pd href h hni
    obtain ⟨ph, rows⟩ := pd
    have h' : ph = some href := h
    subst h'
    by_cases he : href = ""
    · simp [JobsPs.get_total_pages, he]
    · by_cases hc : JobsPs.containsSeq "page=".data href.data = true
      · simp [JobsPs.get_total_pages, he, hc, hni]
      · simp [JobsPs.get_total_pages, he, hc]

/-- Witness for C10: a site whose first fetch fails yields zero pages and
an empty scrape with no page trace; pages with an absent or unparseable
pagination control yield the default 1. -/
theorem c10_failed_first_fetch_witness :
    (JobsPs.get_total_pages ((fun _ => none : Nat → Option JobsPs.PageData) 1) = 0
      ∧ JobsPs.scrape (fun _ => none) (fun _ => none) 2026 JobsPs.sampleCutoff
          = ([], []))
    ∧ JobsPs.get_total_pages (some ⟨none, []⟩) = 1
    ∧ JobsPs.get_total_pages (some ⟨some "/en/it-jobs", []⟩) = 1
    ∧ JobsPs.get_total_pages (some ⟨some "/en/it?page=3&x=1", []⟩) = 1 :=
  ⟨c10_failed_first_fetch.1 (fun _ => none) (fun _ => none) 2026
     JobsPs.sampleCutoff rfl,
   c10_failed_first_fetch.2.1 ⟨none, []⟩ rfl,
   c10_failed_first_fetch.2.2.1 ⟨some "/en/it-jobs", []⟩ "/en/it-jobs" rfl
     (by decide),
   c10_failed_first_fetch.2.2.2 ⟨some "/en/it?page=3&x=1", []⟩ "/en/it?page=3&x=1"
     rfl (by decide)⟩

end ITJA
